import Mathlib

/-!
Verification of the WebAudio caption/mute engine
(`src/script/webAudio.ts` of AdvancedProfanityFilter).

The engine's stateful parts (mute/unmute with delayed unmute timers, rule
initialization) are embedded as explicit state-passing functions; the pure
parts (SRT parsing, cue classification, text-track scoring, node dispatch)
as Lean functions.  JavaScript truthiness of optional fields is made
explicit via `Option` plus truthiness helpers; timers are modelled by a
list of outstanding timer ids plus the stored handle, mirroring
`window.setTimeout`/`clearTimeout`.
-/

namespace WebAudio

/-- Embeds `Constants.MUTE_METHODS`: the three mute effectors. -/
inductive MuteMethod where
  | tab
  | videoMute
  | videoVolume
deriving DecidableEq, Repr

/-- One effector invocation performed by `mute`/`unmute` (the branch taken in
the `switch (rule.muteMethod)`); the `Bool` is the direction (`true` = mute). -/
inductive Effect where
  | tab (mute : Bool)
  | videoMute (mute : Bool)
  | videoVolume (mute : Bool)
deriving DecidableEq, Repr

/-- The fields of the `AudioRule` record used by the claims under audit.
Optional TypeScript fields are `Option`; `disabled` is a `Bool` because the
source only ever tests it for truthiness (absent = `false`). -/
structure AudioRule where
  mode : Option String := none
  tagName : Option String := none
  iframe : Option Bool := none
  disabled : Bool := false
  filterSubtitles : Option Bool := none
  videoSelector : Option String := none
  displaySelector : Option String := none
  displayHide : Option String := none
  displayShow : Option String := none
  muteMethod : Option MuteMethod := none
  showSubtitles : Option Nat := none
  apfCaptions : Option Bool := none
  apfCuesLabel : Option String := none
  videoCueHideCues : Option Bool := none
  videoCueRequireShowing : Option Bool := none
  videoCueLabel : Option String := none
  videoCueLanguage : Option String := none
  videoCueKind : Option String := none
  videoCueSync : Option Int := none  -- in milliseconds, like cue times
  externalSub : Option Bool := none
  externalSubTrackMode : Option String := none
  externalSubURLKey : Option String := none
  externalSubFormatKey : Option String := none
  externalSubTrackLabel : Option String := none
  parentSelector : Option String := none
  parentSelectorAll : Option String := none
  simpleUnmute : Option Bool := none
  checkInterval : Option Nat := none
  ignoreMutations : Option Bool := none
  dynamicTargetMode : Option String := none
  dynamicUnderscore : Option Bool := none  -- the `_dynamic` field
  toCue : Option Bool := none
  unmuteDelay : Option Int := none
deriving DecidableEq, Repr

/-- JS truthiness of an optional string (`undefined` and `''` are falsy). -/
def truthyS (o : Option String) : Bool :=
  match o with
  | some s => s ≠ ""
  | none => false

/-- JS truthiness of an optional boolean (`undefined` and `false` are falsy). -/
def truthyB (o : Option Bool) : Bool :=
  match o with
  | some b => b
  | none => false

/-- JS truthiness of `rule.unmuteDelay` (`undefined` and `0` are falsy). -/
def delayTruthy (r : AudioRule) : Bool :=
  match r.unmuteDelay with
  | some d => d ≠ 0
  | none => false

/-- The test `rule.unmuteDelay >= 0` (false for `undefined`: `NaN >= 0`). -/
def delayGeZero (r : AudioRule) : Bool :=
  match r.unmuteDelay with
  | some d => 0 ≤ d
  | none => false

/-- JS truthiness of the stored `this.unmuteTimeout` handle
(`null` falsy; handles produced by `setTimeout` are positive). -/
def timeoutTruthy (o : Option Nat) : Bool :=
  match o with
  | some n => n ≠ 0
  | none => false

/-- The per-page mutable engine state touched by `mute`/`unmute`:
`muted`, the stats counter `filter.stats.mutes`, the saved `this.volume`,
the video element's own volume and muted flag, the stored
`this.unmuteTimeout` handle, and the host timer table (`scheduled` holds the
ids of set-but-not-yet-fired-or-cleared unmute timers; `nextTimerId` is the
next id `setTimeout` returns, starting at 1).  `effects` logs each effector
invocation in order. -/
structure AudioState where
  muted : Bool
  mutes : Nat
  volume : ℚ
  videoVolume : ℚ
  videoMuted : Bool
  unmuteTimeout : Option Nat
  nextTimerId : Nat
  scheduled : List Nat
  effects : List Effect
deriving DecidableEq, Repr

/-- Embeds `clearUnmuteTimeout(rule)`: clears the stored timer only when
`rule.unmuteDelay` is truthy and a handle is stored. -/
def clearUnmuteTimeout (r : AudioRule) (s : AudioState) : AudioState :=
  if delayTruthy r ∧ s.unmuteTimeout ≠ none then
    { s with scheduled := s.scheduled.erase (s.unmuteTimeout.getD 0),
             unmuteTimeout := none }
  else s

/-- The `switch (rule.muteMethod)` of `mute()`; the video element is taken to
be present (the claims do not depend on a failed DOM lookup).  A `muteMethod`
outside the enum matches no case and invokes no effector. -/
def applyMuteEffector (r : AudioRule) (s : AudioState) : AudioState :=
  match r.muteMethod with
  | some MuteMethod.tab => { s with effects := s.effects ++ [Effect.tab true] }
  | some MuteMethod.videoMute =>
      { s with videoMuted := true, effects := s.effects ++ [Effect.videoMute true] }
  | some MuteMethod.videoVolume =>
      { s with volume := s.videoVolume, videoVolume := 0,
               effects := s.effects ++ [Effect.videoVolume true] }
  | none => s

/-- The `switch (rule.muteMethod)` of `unmute()` (effector reversal). -/
def applyUnmuteEffector (r : AudioRule) (s : AudioState) : AudioState :=
  match r.muteMethod with
  | some MuteMethod.tab => { s with effects := s.effects ++ [Effect.tab false] }
  | some MuteMethod.videoMute =>
      { s with videoMuted := false, effects := s.effects ++ [Effect.videoMute false] }
  | some MuteMethod.videoVolume =>
      { s with videoVolume := s.volume, effects := s.effects ++ [Effect.videoVolume false] }
  | none => s

/-- Embeds `mute(rule, video?)`: no-op when already muted, else set `muted`, bump the
stats counter when `collectStats`, and run one effector; afterwards clear a
pending delayed unmute when `rule && rule.unmuteDelay && this.unmuteTimeout`
(the rule is always supplied at the call sites the claims cover). -/
def mute (collectStats : Bool) (r : AudioRule) (s : AudioState) : AudioState :=
  let s1 :=
    if s.muted then s
    else applyMuteEffector r
      { s with muted := true,
               mutes := if collectStats then s.mutes + 1 else s.mutes }
  if delayTruthy r ∧ timeoutTruthy s1.unmuteTimeout then clearUnmuteTimeout r s1
  else s1

/-- Embeds `unmute(rule, video?, delayed)`: no-op when not muted.  When not the
delayed call itself and `rule.unmuteDelay >= 0`, the source runs
`if (this.unmuteTimeout == null) { this.clearUnmuteTimeout(rule); }` and then
stores a fresh `setTimeout` handle — note the guard fires only when NO timer
handle is stored.  Otherwise it clears `muted` and reverses the effector. -/
def unmute (r : AudioRule) (delayed : Bool) (s : AudioState) : AudioState :=
  if s.muted then
    if ¬ delayed ∧ delayGeZero r then
      let s1 := if s.unmuteTimeout = none then clearUnmuteTimeout r s else s
      { s1 with scheduled := s1.scheduled ++ [s1.nextTimerId],
                unmuteTimeout := some s1.nextTimerId,
                nextTimerId := s1.nextTimerId + 1 }
    else applyUnmuteEffector r { s with muted := false }
  else s

/-- Expiry of unmute timer `id`: the callback `delayedUnmute` runs only when
the timer is still outstanding, and calls `unmute(rule, null, true)`.  Its
final `this.unmuteTimeout = null` executes with `this` bound to the timer
callback's receiver (the global object), not the engine instance, so the
stored handle is left unchanged. -/
def fireUnmuteTimer (r : AudioRule) (id : Nat) (s : AudioState) : AudioState :=
  if id ∈ s.scheduled then
    unmute r true { s with scheduled := s.scheduled.erase id }
  else s

/-! ### Rule initialization (`initRule` and the per-mode `init*Rule` helpers) -/

/-- The global configuration fields `initRule` consults. -/
structure EngineConfig where
  muteMethod : MuteMethod
  showSubtitles : Nat
  muteCueRequireShowing : Bool
  filterText : Bool
  collectStats : Bool
deriving DecidableEq, Repr

/-- Which per-rule-id index sets the rule's id was pushed into. -/
structure RuleSets where
  enabled : Bool
  cue : Bool
  watcher : Bool
  apf : Bool
deriving DecidableEq, Repr

/-- Embeds `initDisplaySelector(rule)`. -/
def initDisplaySelector (r : AudioRule) : AudioRule :=
  if r.displaySelector ≠ none then
    let r := if r.displayHide = none then { r with displayHide := some "none" } else r
    if r.displayShow = none then { r with displayShow := some "" } else r
  else r

/-- Embeds `initCueRule(rule)`. -/
def initCueRule (cfg : EngineConfig) (r : AudioRule) : AudioRule :=
  let r := if r.apfCaptions = some true then { r with videoCueHideCues := some true } else r
  let r := if r.videoCueRequireShowing = none then
      { r with videoCueRequireShowing := some cfg.muteCueRequireShowing } else r
  if truthyB r.externalSub then
    let r := if r.externalSubTrackMode = none then { r with externalSubTrackMode := some "showing" } else r
    let r := if r.externalSubURLKey = none then { r with externalSubURLKey := some "url" } else r
    let r := if r.externalSubFormatKey = none then { r with externalSubFormatKey := some "format" } else r
    if r.externalSubTrackLabel = none then { r with externalSubTrackLabel := some "APF" } else r
  else r

/-- Embeds `initDynamicRule(rule)`: sets `_dynamic`.  The source's second line is
`if (rule.dynamicTargetMode == undefined) rule.disabled == true;` — the body
is the comparison `rule.disabled == true`, an expression with no effect, so
`disabled` is NOT assigned. -/
def initDynamicRule (r : AudioRule) : AudioRule :=
  { r with dynamicUnderscore := some true }

/-- Embeds `initElementChildRule(rule)`. -/
def initElementChildRule (r : AudioRule) : AudioRule :=
  let r := if ¬ truthyS r.parentSelector ∧ ¬ truthyS r.parentSelectorAll then
      { r with disabled := true } else r
  if truthyB r.apfCaptions ∧ r.displaySelector = none then { r with disabled := true } else r

/-- Embeds `initElementRule(rule)`. -/
def initElementRule (r : AudioRule) : AudioRule :=
  if truthyB r.apfCaptions ∧ r.displaySelector = none then { r with disabled := true } else r

/-- Embeds `initTextRule(rule)`. -/
def initTextRule (r : AudioRule) : AudioRule :=
  let r := { r with tagName := some "#text" }
  if r.simpleUnmute = none then { r with simpleUnmute := some true } else r

/-- Embeds `initWatcherRule(rule)`. -/
def initWatcherRule (r : AudioRule) : AudioRule :=
  let r := if r.apfCuesLabel = none then { r with apfCuesLabel := some "APF-Cues" } else r
  let r := if r.checkInterval = none then { r with checkInterval := some 20 } else r
  let r := if r.ignoreMutations = none then { r with ignoreMutations := some true } else r
  if r.simpleUnmute = none then { r with simpleUnmute := some true } else r

/-- The disable preconditions at the top of `initRule` (`pageIframe` is
whether `this.filter.iframe` is non-null). -/
def rulePreconditionFails (pageIframe : Bool) (r : AudioRule) : Prop :=
  r.mode = none
  ∨ ((r.mode = some "element" ∨ r.mode = some "elementChild") ∧ truthyS r.tagName = false)
  ∨ (r.iframe = some true ∧ pageIframe = false)
  ∨ (r.iframe = some false ∧ pageIframe = true)

instance (pageIframe : Bool) (r : AudioRule) : Decidable (rulePreconditionFails pageIframe r) := by
  unfold rulePreconditionFails; infer_instance

/-- Embeds `initRule(rule)`: returns the rule after initialization together with the
index sets its id joined (`enabledRuleIds`, `cueRuleIds`, `watcherRuleIds`,
`apfCaptionRuleIds`).  The `setInterval` scheduling for watcher rules has no
effect on the rule record and is not modelled. -/
def initRule (cfg : EngineConfig) (pageIframe : Bool) (r : AudioRule) :
    AudioRule × RuleSets :=
  let r := if rulePreconditionFails pageIframe r then { r with disabled := true } else r
  if r.disabled then
    (r, { enabled := false, cue := false, watcher := false, apf := false })
  else
    let r := if r.filterSubtitles = none then { r with filterSubtitles := some true } else r
    let r := if cfg.filterText = false then { r with filterSubtitles := some false } else r
    let r := if r.videoSelector = none then { r with videoSelector := some "video" } else r
    let r := initDisplaySelector r
    let r := if r.muteMethod = none then { r with muteMethod := some cfg.muteMethod } else r
    let r := if r.showSubtitles = none then { r with showSubtitles := some cfg.showSubtitles } else r
    let r := if r.tagName ≠ none ∧ r.tagName ≠ some "#text" then
        { r with tagName := some (r.tagName.getD "").toUpper } else r
    let step : AudioRule × Bool × Bool :=
      match r.mode with
      | some "cue" =>
          let r := initCueRule cfg r
          (r, ¬ r.disabled, false)
      | some "dynamic" => (initDynamicRule r, false, false)
      | some "elementChild" => (initElementChildRule r, false, false)
      | some "element" => (initElementRule r, false, false)
      | some "text" => (initTextRule r, false, false)
      | some "watcher" =>
          let r := initWatcherRule r
          (r, false, ¬ r.disabled)
      | some "ytauto" => ({ r with disabled := true }, false, false)
      | _ => (r, false, false)
    let r := step.1
    if r.disabled then
      (r, { enabled := false, cue := step.2.1, watcher := step.2.2, apf := false })
    else
      (r, { enabled := true, cue := step.2.1, watcher := step.2.2, apf := truthyB r.apfCaptions })

/-! ### Cues and the SRT parser (`newCue`, `parseSRT`)

Character-level helpers replay the JavaScript string operations
(`trim`, `replace('\r\n','\n')` — first occurrence only, `split(/[\r\n]/)`,
`indexOf('-->')`, `split(/[ \t]+-->[ \t]+/)`). -/

/-- A `VTTCue` plus the derived classification fields added by
`processCues` (`FilteredVTTCue`); a plain parsed cue leaves them `none`
(`hasOwnProperty('filtered')` is `filtered.isSome`).  Times are in integral
MILLISECONDS: §4.7 fixes timing conversion as exact to the millisecond, so
1.0 s is `1000`.  The VTT positioning options (`align`/`line`/`position`)
are always absent on the SRT path the claims exercise and are omitted. -/
structure Cue where
  startTime : Int
  endTime : Int
  text : String
  filtered : Option Bool := none
  originalText : Option String := none
  filteredText : Option String := none
deriving DecidableEq, Repr

/-- Whitespace for `trim` (the source strings only use spaces, tabs and
newlines). -/
def isWsChar (c : Char) : Bool :=
  c = ' ' ∨ c = '\t' ∨ c = '\n' ∨ c = '\r'

/-- Embeds `String.prototype.trim` on a character list. -/
def trimChars (cs : List Char) : List Char :=
  ((cs.dropWhile isWsChar).reverse.dropWhile isWsChar).reverse

/-- Embeds `str.replace('\r\n', '\n')`: JavaScript `replace` with a string pattern
replaces only the FIRST occurrence. -/
def replaceFirstCRLF : List Char → List Char
  | '\r' :: '\n' :: rest => '\n' :: rest
  | c :: rest => c :: replaceFirstCRLF rest
  | [] => []

/-- Embeds `split(/[\r\n]/)`: split at every single CR or LF. -/
def splitLinesGo : List Char → List Char → List (List Char)
  | [], cur => [cur.reverse]
  | c :: cs, cur =>
      if c = '\r' ∨ c = '\n' then cur.reverse :: splitLinesGo cs []
      else splitLinesGo cs (c :: cur)

/-- Embeds `lines[i].indexOf('-->') >= 0`. -/
def containsArrow : List Char → Bool
  | '-' :: '-' :: '>' :: _ => true
  | _ :: cs => containsArrow cs
  | [] => false

/-- Separator of `split(/[ \t]+-->[ \t]+/)`: at the current position, match
one-or-more spaces/tabs, `-->`, one-or-more spaces/tabs; return the
remainder on success. -/
def arrowSepCheck (cs : List Char) : Option (List Char) :=
  let ws1 := cs.takeWhile (fun c => c = ' ' ∨ c = '\t')
  if ws1.isEmpty then none
  else
    match cs.drop ws1.length with
    | '-' :: '-' :: '>' :: rest2 =>
        let ws2 := rest2.takeWhile (fun c => c = ' ' ∨ c = '\t')
        if ws2.isEmpty then none else some (rest2.drop ws2.length)
    | _ => none

/-- Embeds `split(/[ \t]+-->[ \t]+/)`, scanning left to right.  `fuel` bounds the
recursion; each step consumes at least one character, so `length + 1`
suffices. -/
def splitArrowGo : Nat → List Char → List Char → List (List Char)
  | 0, _, cur => [cur.reverse]
  | _ + 1, [], cur => [cur.reverse]
  | fuel + 1, c :: cs, cur =>
      match arrowSepCheck (c :: cs) with
      | some rest => cur.reverse :: splitArrowGo fuel rest []
      | none => splitArrowGo fuel cs (c :: cur)

def splitArrow (cs : List Char) : List (List Char) :=
  splitArrowGo (cs.length + 1) cs []

/-- A digit run as a number (`none` when empty or non-digits). -/
def parseDigits (ds : List Char) : Option Nat :=
  if ds.isEmpty ∨ ¬ ds.all Char.isDigit then none
  else some (ds.foldl (fun acc c => acc * 10 + (c.toNat - 48)) 0)

/-- Modelled from the spec: second-token conversion of `hmsToSeconds`
(`lib/helper.ts`, not under `src/`).  Per §4.7 the fractional part is exact
to the millisecond (`SS.mmm`, at most three fraction digits), and the worked
SRT example in §8 writes the milliseconds after a comma, so `,` and `.` are
both accepted; anything malformed fails (`none`, the throw).  Result in
milliseconds. -/
def parseDecSeconds (cs : List Char) : Option Int :=
  let cs := cs.map (fun c => if c = ',' then '.' else c)
  let whole := cs.takeWhile (fun c => c ≠ '.')
  let rest := cs.drop whole.length
  match rest with
  | [] => (parseDigits whole).map (fun n => (n : Int) * 1000)
  | '.' :: frac =>
      if frac.length = 0 ∨ 3 < frac.length then none
      else do
        let w ← parseDigits whole
        let f ← parseDigits frac
        pure ((w : Int) * 1000 + (f : Int) * (10 : Int) ^ (3 - frac.length))
  | _ => none

def splitColon : List Char → List Char → List (List Char)
  | [], cur => [cur.reverse]
  | c :: cs, cur =>
      if c = ':' then cur.reverse :: splitColon cs []
      else splitColon cs (c :: cur)

/-- Modelled from the spec: `hmsToSeconds` of `lib/helper.ts` (not under
`src/`).  A timing token is `H:MM:SS.mmm` (or a bare seconds token), exact
to the millisecond; malformed timing fails (`none`, the throw).  Result in
milliseconds. -/
def hmsToSeconds (s : String) : Option Int :=
  match splitColon s.data [] with
  | [sec] => parseDecSeconds sec
  | [h, m, sec] => do
      let hh ← parseDigits h
      let mm ← parseDigits m
      let ss ← parseDecSeconds sec
      pure ((hh : Int) * 3600000 + (mm : Int) * 60000 + ss)
  | _ => none

/-- Embeds `newCue(start, end, text)` on the string-timing path used by the
parsers: converts both timing tokens, builds the `VTTCue`, and catches any
failure (`none` models the caught throw / `undefined` return). -/
def newCue (start e text : String) : Option Cue := do
  let s ← hmsToSeconds start
  let en ← hmsToSeconds e
  pure { startTime := s, endTime := en, text := text }

/-- The raw `(start, end, text)` registers of one emitted SRT block;
`text` stays `null` for a block with no text lines (the `VTTCue`
constructor then renders it as the string `"null"`). -/
structure SrtBlock where
  startTok : String
  endTok : String
  text : Option String
deriving DecidableEq, Repr

def mkBlockCue (b : SrtBlock) : Option Cue :=
  newCue b.startTok b.endTok (b.text.getD "null")

/-- Truthiness of the `start`/`end`/`text` registers (`null` or `''` falsy). -/
def regTruthy (o : Option String) : Bool :=
  match o with
  | some s => s ≠ ""
  | none => false

/-- The `parseSRT` line loop.  `acc` collects `cues.push(...)` results: note
the source pushes the result of `newCue` unconditionally, so a failed
construction contributes a `none` (`undefined`) entry. -/
def srtGo : List String → Option String → Option String → Option String →
    List (Option Cue) → Except String (List (Option Cue))
  | [], start, e, text, acc =>
      Except.ok (acc ++ if regTruthy start ∧ regTruthy e then
        [newCue (start.getD "") (e.getD "") (text.getD "null")] else [])
  | l :: ls, start, e, text, acc =>
      if containsArrow l.data then
        match splitArrow l.data with
        | [a, b] => srtGo ls (some (String.mk a)) (some (String.mk b)) text acc
        | _ => Except.error "Error when splitting the timing line."
      else if l = "" then
        if regTruthy start ∧ regTruthy e then
          srtGo ls none none none
            (acc ++ [newCue (start.getD "") (e.getD "") (text.getD "null")])
        else srtGo ls start e text acc
      else if regTruthy start ∧ regTruthy e then
        srtGo ls start e
          (some (match text with
                 | none => l
                 | some t => t ++ "\n" ++ l)) acc
      else srtGo ls start e text acc

/-- Embeds `parseSRT(srt)`. -/
def parseSRT (srt : String) : Except String (List (Option Cue)) :=
  let lines := (splitLinesGo (replaceFirstCRLF (trimChars srt.data)) []).map
    (fun cs => String.mk (trimChars cs))
  srtGo lines none none none []

/-- The same traversal as `srtGo`, collecting the raw block registers
instead of constructed cues. -/
def srtBlocksGo : List String → Option String → Option String → Option String →
    List SrtBlock → Except String (List SrtBlock)
  | [], start, e, text, acc =>
      Except.ok (acc ++ if regTruthy start ∧ regTruthy e then
        [{ startTok := start.getD "", endTok := e.getD "", text := text }] else [])
  | l :: ls, start, e, text, acc =>
      if containsArrow l.data then
        match splitArrow l.data with
        | [a, b] => srtBlocksGo ls (some (String.mk a)) (some (String.mk b)) text acc
        | _ => Except.error "Error when splitting the timing line."
      else if l = "" then
        if regTruthy start ∧ regTruthy e then
          srtBlocksGo ls none none none
            (acc ++ [{ startTok := start.getD "", endTok := e.getD "", text := text }])
        else srtBlocksGo ls start e text acc
      else if regTruthy start ∧ regTruthy e then
        srtBlocksGo ls start e
          (some (match text with
                 | none => l
                 | some t => t ++ "\n" ++ l)) acc
      else srtBlocksGo ls start e text acc

/-- The blocks `parseSRT` emits, one per `cues.push`. -/
def parseSRTBlocks (srt : String) : Except String (List SrtBlock) :=
  let lines := (splitLinesGo (replaceFirstCRLF (trimChars srt.data)) []).map
    (fun cs => String.mk (trimChars cs))
  srtBlocksGo lines none none none []

/-! ### Cue classification (`processCues`) -/

/-- The external filter's result (`replaceTextResult` is an out-of-scope
collaborator; `processCues` takes the filter as a function parameter). -/
structure ReplaceTextResult where
  original : String
  filtered : String
  modified : Bool
deriving DecidableEq, Repr

/-- The body of the `processCues` loop for one cue. -/
def processCue (r : AudioRule) (f : String → ReplaceTextResult) (c : Cue) : Cue :=
  if c.filtered.isSome then c
  else
    let c := match r.videoCueSync with
      | some v => if v ≠ 0 then { c with startTime := c.startTime + v, endTime := c.endTime + v } else c
      | none => c
    let result := f c.text
    { c with originalText := some c.text,
             filteredText := some result.filtered,
             filtered := some result.modified,
             text := if result.modified ∧ truthyB r.filterSubtitles ∧ ¬ truthyB r.apfCaptions
                     then result.filtered else c.text }

/-- Embeds `processCues(cues, rule)` (the in-place loop as a map). -/
def processCues (r : AudioRule) (f : String → ReplaceTextResult) (cues : List Cue) : List Cue :=
  cues.map (processCue r f)

/-! ### Text-track selection (`getVideoTextTrack`) -/

/-- The `TextTrack` fields `getVideoTextTrack` reads; string fields use `""`
for an absent value (falsy), `cuesCount` is `cues.length` (0 also for a
`null` cue list). -/
structure TextTrackModel where
  label : String
  language : String
  kind : String
  mode : String
  cuesCount : Nat
deriving DecidableEq, Repr

/-- The track fields named by `WebAudio.textTrackRuleMappings`. -/
inductive TrackKey where
  | label
  | language
  | kind
deriving DecidableEq, Repr

def trackField (t : TextTrackModel) : TrackKey → String
  | TrackKey.label => t.label
  | TrackKey.language => t.language
  | TrackKey.kind => t.kind

/-- Embeds `textTrackKeyTest(textTrack, key, value)`. -/
def textTrackKeyTest (t : TextTrackModel) (k : TrackKey) (v : String) : Bool :=
  trackField t k ≠ "" ∧ v ≠ "" ∧ trackField t k = v

/-- The optional `overrideKey` argument, resolved to the mapped track field
and the rule's value for it (`rule[overrideKey]`). -/
def ovTruthy (ov : Option (TrackKey × String)) : Bool :=
  match ov with
  | some (_, v) => v ≠ ""
  | none => false

def perfectScore (r : AudioRule) (ov : Option (TrackKey × String)) : Nat :=
  (if ovTruthy ov then 1000 else 0)
  + (if truthyS r.videoCueLabel then 100 else 0)
  + (if truthyS r.videoCueLanguage then 10 else 0)
  + (if truthyS r.videoCueKind then 1 else 0)

def trackScore (r : AudioRule) (ov : Option (TrackKey × String)) (t : TextTrackModel) : Nat :=
  (if ovTruthy ov ∧ textTrackKeyTest t (ov.getD (TrackKey.label, "")).1 (ov.getD (TrackKey.label, "")).2
   then 1000 else 0)
  + (if truthyS r.videoCueLabel ∧ textTrackKeyTest t TrackKey.label (r.videoCueLabel.getD "")
     then 100 else 0)
  + (if truthyS r.videoCueLanguage ∧ textTrackKeyTest t TrackKey.language (r.videoCueLanguage.getD "")
     then 10 else 0)
  + (if truthyS r.videoCueKind then
       (if textTrackKeyTest t TrackKey.kind (r.videoCueKind.getD "") then 1 else 0)
     else
       (if textTrackKeyTest t TrackKey.kind "captions" ∨ textTrackKeyTest t TrackKey.kind "subtitles"
        then 1 else 0))

/-- A track enters the scoring loop only with non-empty cues and, when
`rule.videoCueRequireShowing`, with `mode === 'showing'`. -/
def consideredTrack (r : AudioRule) (t : TextTrackModel) : Bool :=
  0 < t.cuesCount ∧ (¬ truthyB r.videoCueRequireShowing ∨ t.mode = "showing")

/-- Embeds `bestScore`/`bestIndex` update: the code takes the current track when
`currentScore > bestScore || !foundCues`, and `bestScore` always equals the
kept track's score once `foundCues` holds. -/
def bestStep (r : AudioRule) (ov : Option (TrackKey × String)) :
    Option TextTrackModel → TextTrackModel → Option TextTrackModel
  | none, t => some t
  | some b, t => if trackScore r ov b < trackScore r ov t then some t else some b

/-- The scan loop of `getVideoTextTrack`, carrying the best considered track
so far (the code carries `bestIndex` and returns `textTracks[bestIndex]`,
guarded by `foundCues`). -/
def getVideoTextTrackLoop (r : AudioRule) (ov : Option (TrackKey × String)) :
    List TextTrackModel → Option TextTrackModel → Option TextTrackModel
  | [], best => best
  | t :: ts, best =>
      if consideredTrack r t then
        if trackScore r ov t = perfectScore r ov then some t
        else getVideoTextTrackLoop r ov ts (bestStep r ov best t)
      else getVideoTextTrackLoop r ov ts best

/-- Embeds `getVideoTextTrack(textTracks, rule, overrideKey?)`. -/
def getVideoTextTrack (r : AudioRule) (ov : Option (TrackKey × String))
    (tracks : List TextTrackModel) : Option TextTrackModel :=
  getVideoTextTrackLoop r ov tracks none

/-- The claim's selection rule, word for word: the first considered track
attaining the perfect score; else, when some considered track scores above
zero, the first considered track with maximal score; else the first track
with any cues; no track only when no track has cues. -/
def getVideoTextTrackClaimed (r : AudioRule) (ov : Option (TrackKey × String))
    (tracks : List TextTrackModel) : Option TextTrackModel :=
  let cons := tracks.filter (consideredTrack r)
  match cons.find? (fun t => trackScore r ov t = perfectScore r ov) with
  | some t => some t
  | none =>
      if cons.any (fun t => 0 < trackScore r ov t) then cons.foldl (bestStep r ov) none
      else tracks.find? (fun t => 0 < t.cuesCount)

/-- The amended selection rule: the first considered track attaining the
perfect score; else the first considered track with maximal score (which is
the first considered track when none scores above zero); no track when no
track is considered. -/
def getVideoTextTrackAmendedSpec (r : AudioRule) (ov : Option (TrackKey × String))
    (tracks : List TextTrackModel) : Option TextTrackModel :=
  let cons := tracks.filter (consideredTrack r)
  match cons.find? (fun t => trackScore r ov t = perfectScore r ov) with
  | some t => some t
  | none => cons.foldl (bestStep r ov) none

/-! ### Node dispatch (`supportedNode`) -/

/-- The JS return value of `supportedNode`: a numeric rule id or the boolean
`false`. -/
inductive SupportedResult where
  | ruleId : Nat → SupportedResult
  | notFound
deriving DecidableEq, Repr

/-- JS truthiness of that return value: the number `0` is falsy, exactly
like the `false` of the no-match case. -/
def supportedResultTruthy : SupportedResult → Bool
  | SupportedResult.ruleId n => n ≠ 0
  | SupportedResult.notFound => false

/-- Whether the dispatch `switch (rule.mode)` can set `supported` for rule
`i`:  the element/elementChild/text/watcher cases consult their DOM
predicate (abstracted as the oracle `accepts`, fixed node); the `dynamic`
case calls `supportedDynamicNode` but DISCARDS its result, and every other
mode (including `cue`) has no case — `supported` stays `false`. -/
def ruleMatches (rules : List AudioRule) (accepts : Nat → Bool) (i : Nat) : Bool :=
  match (rules.getD i {}).mode with
  | some m =>
      if m = "element" ∨ m = "elementChild" ∨ m = "text" ∨ m = "watcher" then accepts i
      else false
  | none => false

/-- Embeds `supportedNode(node)`: iterate `enabledRuleIds` in order, return the
first matching rule id, else `false`. -/
def supportedNode (rules : List AudioRule) (enabledRuleIds : List Nat)
    (accepts : Nat → Bool) : SupportedResult :=
  match enabledRuleIds with
  | [] => SupportedResult.notFound
  | i :: rest =>
      let rule := rules.getD i {}
      let supported : Bool :=
        match rule.mode with
        | some m =>
            if m = "element" ∨ m = "elementChild" ∨ m = "text" ∨ m = "watcher" then accepts i
            else false
        | none => false
      if supported then SupportedResult.ruleId i else supportedNode rules rest accepts

/-! ### Concrete states and rules used by the evaluation theorems -/

/-- A muted engine with no pending timer and a fresh timer table. -/
def stateMutedNoTimer : AudioState :=
  { muted := true, mutes := 0, volume := 1, videoVolume := 1, videoMuted := false,
    unmuteTimeout := none, nextTimerId := 1, scheduled := [], effects := [] }

/-- A rule with a 500 ms delayed unmute. -/
def ruleDelay500 : AudioRule :=
  { unmuteDelay := some 500, muteMethod := some MuteMethod.videoVolume }

/-- A rule with a zero delayed unmute (`unmuteDelay: 0`). -/
def ruleDelay0 : AudioRule :=
  { unmuteDelay := some 0, muteMethod := some MuteMethod.tab }

/-- A default global configuration. -/
def engineConfig0 : EngineConfig :=
  { muteMethod := MuteMethod.videoVolume, showSubtitles := 0,
    muteCueRequireShowing := false, filterText := true, collectStats := false }

/-! ### Claim C1 -/

/-- Claim C1 (code bug evaluation): from a muted state with no pending timer
and `unmuteDelay = 500`, a first non-delayed `unmute` schedules one timer and
leaves `muted` unchanged, but a second `unmute` while that timer is pending
does NOT cancel it — afterwards two unmute timers are outstanding (the
source clears the old timer only when `this.unmuteTimeout == null`, i.e.
never while one is pending, contradicting its own comment), and the leaked
first timer still fires and clears the mute early. -/
theorem unmute_double_schedule_leaks_timer :
    (unmute ruleDelay500 false stateMutedNoTimer).scheduled = [1]
    ∧ (unmute ruleDelay500 false stateMutedNoTimer).muted = true
    ∧ (unmute ruleDelay500 false (unmute ruleDelay500 false stateMutedNoTimer)).scheduled = [1, 2]
    ∧ (fireUnmuteTimer ruleDelay500 1
        (unmute ruleDelay500 false (unmute ruleDelay500 false stateMutedNoTimer))).muted = false := by
  decide

/-! ### Claim C2 -/

/-- Claim C2 (code bug evaluation): a rule with mode `dynamic` and no
`dynamicTargetMode` ends `initRule` with `disabled = false` and IS added to
the enabled rule set, because `initDynamicRule`'s guard body
`rule.disabled == true` is a comparison, not an assignment. -/
theorem dynamic_rule_stays_enabled :
    (initRule engineConfig0 false { mode := some "dynamic" }).1.disabled = false
    ∧ (initRule engineConfig0 false { mode := some "dynamic" }).2.enabled = true := by
  decide

/-! ### Claim C8 -/

/-- Claim C8: parsing `"1\n00:00:01,000 --> 00:00:02,000\nHello\n\n"` yields
exactly one cue with start 1 s, end 2 s and text `"Hello"`. -/
theorem parseSRT_simple_example :
    parseSRT "1\n00:00:01,000 --> 00:00:02,000\nHello\n\n"
      = Except.ok [some { startTime := 1000, endTime := 2000, text := "Hello" }] := by
  rfl

/-! ### Claim C4 -/

/-- Claim C4 (counterexample): on an SRT input whose first block has the
malformed timing token `"A"`, `newCue` fails, is caught, and `parseSRT`
pushes the `undefined` return value: the result list still has two entries,
the first of them `none` — the failed cue is NOT dropped, so the returned
list does not contain only successfully constructed cues. -/
theorem parseSRT_keeps_failed_cue_entry :
    parseSRT "1\nA --> 00:00:02,000\nHello\n\n2\n00:00:03,000 --> 00:00:04,000\nWorld\n\n"
      = Except.ok [none, some { startTime := 3000, endTime := 4000, text := "World" }]
    ∧ ([none, some ({ startTime := 3000, endTime := 4000, text := "World" } : Cue)].all
        Option.isSome) = false := by
  exact ⟨rfl, rfl⟩

theorem srtGo_eq_blocks (ls : List String) : ∀ (st en tx : Option String)
    (acc : List SrtBlock),
    srtGo ls st en tx (acc.map mkBlockCue)
      = Except.map (List.map mkBlockCue) (srtBlocksGo ls st en tx acc) := by
  induction ls with
  | nil =>
      intro st en tx acc
      simp only [srtGo, srtBlocksGo, Except.map]
      split
      · simp [mkBlockCue]
      · simp
  | cons l ls ih =>
      intro st en tx acc
      simp only [srtGo, srtBlocksGo]
      split
      · split
        · exact ih _ _ _ _
        · rfl
      · split
        · split
          · have h2 : List.map mkBlockCue acc
                ++ [newCue (st.getD "") (en.getD "") (tx.getD "null")]
                = List.map mkBlockCue
                  (acc ++ [{ startTok := st.getD "", endTok := en.getD "", text := tx }]) := by
              simp [mkBlockCue]
            rw [h2]
            exact ih _ _ _ _
          · exact ih _ _ _ _
        · split
          · exact ih _ _ _ _
          · exact ih _ _ _ _

/-- Claim C4 (amended): a `newCue` failure is caught per-cue and never
aborts the parse; each emitted SRT block contributes exactly one entry to
the result — the constructed cue on success, an `undefined` (`none`) entry
on failure — so all other cues of the same parse are still produced, but
the failed cue stays in the list as `undefined` rather than being dropped. -/
theorem parseSRT_eq_map_newCue_over_blocks (srt : String) :
    parseSRT srt = Except.map (List.map mkBlockCue) (parseSRTBlocks srt) := by
  unfold parseSRT parseSRTBlocks
  exact srtGo_eq_blocks _ none none none []

/-! ### Claim C5 -/

/-- The rule of the C5 counterexample: a label key (so the perfect score is
100) and `videoCueRequireShowing`. -/
def ruleCueShowing : AudioRule :=
  { videoCueLabel := some "A", videoCueRequireShowing := some true }

/-- A hidden track with cues. -/
def trackHiddenWithCues : TextTrackModel :=
  { label := "B", language := "", kind := "", mode := "hidden", cuesCount := 1 }

/-- A showing track with cues scoring zero. -/
def trackShowingWithCues : TextTrackModel :=
  { label := "B", language := "", kind := "", mode := "showing", cuesCount := 1 }

/-- Claim C5 (counterexample): with `videoCueRequireShowing` and no
considered track scoring above zero, the code falls back to the first
CONSIDERED track (with cues and showing), not — as the claim states — to
the first track with any cues: on `[hidden-with-cues, showing-with-cues]`
the code returns the showing track while the claimed selection rule picks
the hidden one. -/
theorem getVideoTextTrack_fallback_counterexample :
    getVideoTextTrack ruleCueShowing none [trackHiddenWithCues, trackShowingWithCues]
      = some trackShowingWithCues
    ∧ getVideoTextTrackClaimed ruleCueShowing none [trackHiddenWithCues, trackShowingWithCues]
      = some trackHiddenWithCues
    ∧ trackShowingWithCues ≠ trackHiddenWithCues := by
  exact ⟨rfl, rfl, by decide⟩

theorem getVideoTextTrackLoop_eq (r : AudioRule) (ov : Option (TrackKey × String))
    (ts : List TextTrackModel) : ∀ best,
    getVideoTextTrackLoop r ov ts best =
      match (ts.filter (consideredTrack r)).find?
          (fun t => trackScore r ov t = perfectScore r ov) with
      | some t => some t
      | none => (ts.filter (consideredTrack r)).foldl (bestStep r ov) best := by
  induction ts with
  | nil => intro best; rfl
  | cons t ts ih =>
      intro best
      simp only [getVideoTextTrackLoop]
      by_cases hc : consideredTrack r t = true
      · rw [if_pos hc]
        by_cases hp : trackScore r ov t = perfectScore r ov
        · rw [if_pos hp, List.filter_cons_of_pos hc,
            List.find?_cons_of_pos _ (by simpa using hp)]
        · rw [if_neg hp, List.filter_cons_of_pos hc,
            List.find?_cons_of_neg _ (by simpa using hp), List.foldl_cons]
          exact ih (bestStep r ov best t)
      · rw [if_neg hc, List.filter_cons_of_neg (by simpa using hc)]
        exact ih best

/-- Claim C5 (amended): `getVideoTextTrack` returns the first considered
track (non-empty cues and, when `videoCueRequireShowing`, `mode=='showing'`)
that attains the perfect score, and otherwise the first considered track
with maximal weighted score — in particular, when no considered track
scores above zero this is the first considered track, not the first track
with any cues — and returns no track when no track is considered. -/
theorem getVideoTextTrack_eq_amended (r : AudioRule) (ov : Option (TrackKey × String))
    (tracks : List TextTrackModel) :
    getVideoTextTrack r ov tracks = getVideoTextTrackAmendedSpec r ov tracks := by
  unfold getVideoTextTrack getVideoTextTrackAmendedSpec
  exact getVideoTextTrackLoop_eq r ov tracks none

/-! ### Claim C3 -/

theorem applyMuteEffector_preserves (r : AudioRule) (s : AudioState) :
    (applyMuteEffector r s).muted = s.muted
    ∧ (applyMuteEffector r s).mutes = s.mutes
    ∧ (applyMuteEffector r s).unmuteTimeout = s.unmuteTimeout
    ∧ (applyMuteEffector r s).scheduled = s.scheduled := by
  unfold applyMuteEffector
  cases h : r.muteMethod with
  | none => exact ⟨rfl, rfl, rfl, rfl⟩
  | some m => cases m <;> exact ⟨rfl, rfl, rfl, rfl⟩

theorem clearUnmuteTimeout_preserves (r : AudioRule) (s : AudioState) :
    (clearUnmuteTimeout r s).muted = s.muted
    ∧ (clearUnmuteTimeout r s).mutes = s.mutes
    ∧ (clearUnmuteTimeout r s).effects = s.effects := by
  unfold clearUnmuteTimeout
  split <;> exact ⟨rfl, rfl, rfl⟩

/-- Claim C3 (counterexample): `unmute` schedules a delayed unmute whenever
`unmuteDelay >= 0`, including `unmuteDelay = 0`, but `mute` clears the
pending timer only when `rule.unmuteDelay` is TRUTHY — so for
`unmuteDelay = 0` the timer scheduled by `unmute` survives the `mute` call
and its expiry clears the mute. -/
theorem mute_misses_zero_delay_timer :
    (mute false ruleDelay0 (unmute ruleDelay0 false stateMutedNoTimer)).scheduled = [1]
    ∧ (mute false ruleDelay0 (unmute ruleDelay0 false stateMutedNoTimer)).muted = true
    ∧ (fireUnmuteTimer ruleDelay0 1
        (mute false ruleDelay0 (unmute ruleDelay0 false stateMutedNoTimer))).muted = false := by
  decide

/-- Claim C3 (amended): for every engine state with a pending delayed-unmute
timer scheduled under a POSITIVE `unmuteDelay`, calling `mute` cancels the
pending timer (the stored handle is cleared and the timer leaves the
outstanding set), so the later timer expiry finds no pending timer and does
not clear the mute; for `unmuteDelay = 0` — also accepted by the scheduler's
`unmuteDelay >= 0` test — the timer is not cancelled and its expiry unmutes. -/
theorem mute_cancels_pending_unmute_timer (cs : Bool) (r : AudioRule) (s : AudioState)
    (d : Int) (h : Nat)
    (hd : r.unmuteDelay = some d) (hdpos : 0 < d)
    (hto : s.unmuteTimeout = some h) (hpos : h ≠ 0)
    (hnd : s.scheduled.Nodup) :
    (mute cs r s).unmuteTimeout = none
    ∧ h ∉ (mute cs r s).scheduled
    ∧ (mute cs r s).muted = true
    ∧ (fireUnmuteTimer r h (mute cs r s)).muted = true := by
  have hdt : delayTruthy r = true := by
    unfold delayTruthy
    rw [hd]
    simp
    omega
  have hs1 : (if s.muted then s
      else applyMuteEffector r
        { s with muted := true, mutes := if cs then s.mutes + 1 else s.mutes }).muted = true
      ∧ (if s.muted then s
      else applyMuteEffector r
        { s with muted := true, mutes := if cs then s.mutes + 1 else s.mutes }).unmuteTimeout
        = s.unmuteTimeout
      ∧ (if s.muted then s
      else applyMuteEffector r
        { s with muted := true, mutes := if cs then s.mutes + 1 else s.mutes }).scheduled
        = s.scheduled := by
    by_cases hm : s.muted = true
    · rw [if_pos hm]
      exact ⟨hm, rfl, rfl⟩
    · rw [if_neg hm]
      refine ⟨?_, ?_, ?_⟩
      · rw [(applyMuteEffector_preserves r _).1]
      · rw [(applyMuteEffector_preserves r _).2.2.1]
      · rw [(applyMuteEffector_preserves r _).2.2.2]
  have hmute : mute cs r s = clearUnmuteTimeout r (if s.muted then s
      else applyMuteEffector r
        { s with muted := true, mutes := if cs then s.mutes + 1 else s.mutes }) := by
    unfold mute
    rw [if_pos]
    constructor
    · exact hdt
    · rw [hs1.2.1, hto]
      unfold timeoutTruthy
      simpa using hpos
  have hclear : clearUnmuteTimeout r (if s.muted then s
      else applyMuteEffector r
        { s with muted := true, mutes := if cs then s.mutes + 1 else s.mutes })
      = { (if s.muted then s
          else applyMuteEffector r
            { s with muted := true, mutes := if cs then s.mutes + 1 else s.mutes }) with
          scheduled := s.scheduled.erase h, unmuteTimeout := none } := by
    unfold clearUnmuteTimeout
    rw [if_pos]
    · rw [hs1.2.2, hs1.2.1, hto]
      rfl
    · constructor
      · exact hdt
      · rw [hs1.2.1, hto]
        simp
  rw [hmute, hclear]
  refine ⟨rfl, ?_, hs1.1, ?_⟩
  · intro hmem
    have := (hnd.mem_erase_iff).mp hmem
    exact this.1 rfl
  · unfold fireUnmuteTimer
    rw [if_neg]
    · exact hs1.1
    · intro hmem
      have := (hnd.mem_erase_iff).mp hmem
      exact this.1 rfl

/-- A muted engine with unmute timer 1 pending. -/
def stateMutedTimerPending : AudioState :=
  { muted := true, mutes := 0, volume := 1, videoVolume := 1, videoMuted := false,
    unmuteTimeout := some 1, nextTimerId := 2, scheduled := [1], effects := [] }

/-- Witness for `mute_cancels_pending_unmute_timer` at a concrete pending
state and the 500 ms rule. -/
theorem mute_cancels_pending_unmute_timer_witness :
    (mute false ruleDelay500 stateMutedTimerPending).unmuteTimeout = none
    ∧ 1 ∉ (mute false ruleDelay500 stateMutedTimerPending).scheduled
    ∧ (mute false ruleDelay500 stateMutedTimerPending).muted = true
    ∧ (fireUnmuteTimer ruleDelay500 1 (mute false ruleDelay500 stateMutedTimerPending)).muted
      = true :=
  mute_cancels_pending_unmute_timer false ruleDelay500 stateMutedTimerPending 500 1
    rfl (by decide) rfl (by decide) (by decide)

/-! ### Claim C6 -/

theorem processCue_already_classified (r : AudioRule) (f : String → ReplaceTextResult)
    (c : Cue) (h : c.filtered.isSome) : processCue r f c = c := by
  unfold processCue
  rw [if_pos h]

theorem processCue_classifies (r : AudioRule) (f : String → ReplaceTextResult)
    (c : Cue) (h : ¬ c.filtered.isSome) : (processCue r f c).filtered.isSome := by
  unfold processCue
  rw [if_neg h]
  simp

theorem processCue_idem (r : AudioRule) (f : String → ReplaceTextResult) (c : Cue) :
    processCue r f (processCue r f c) = processCue r f c := by
  by_cases h : c.filtered.isSome
  · rw [processCue_already_classified r f c h, processCue_already_classified r f c h]
  · exact processCue_already_classified r f _ (processCue_classifies r f c h)

/-- Claim C6: `processCues` writes `originalText`/`filteredText`/`filtered`
only on cues that do not yet carry a `filtered` property — an
already-classified cue passes through unchanged — and therefore running
`processCues` a second time on its own output changes nothing
(classification is set exactly once per cue instance; `processCues` is
idempotent). -/
theorem processCues_skips_classified_and_idempotent (r : AudioRule)
    (f : String → ReplaceTextResult) (cues : List Cue) :
    (∀ c ∈ cues, c.filtered.isSome → processCue r f c = c)
    ∧ processCues r f (processCues r f cues) = processCues r f cues := by
  constructor
  · intro c _ h
    exact processCue_already_classified r f c h
  · unfold processCues
    rw [List.map_map]
    exact List.map_congr_left (fun c _ => processCue_idem r f c)

/-- A filter standing in for the out-of-scope `replaceTextResult`. -/
def censorAll : String → ReplaceTextResult :=
  fun s => { original := s, filtered := "***", modified := true }

/-- Witness for `processCues_skips_classified_and_idempotent`: a concrete
two-cue list, one cue already classified. -/
theorem processCues_skips_classified_and_idempotent_witness :
    processCue {} censorAll
      { startTime := 0, endTime := 1000, text := "kept", filtered := some false } =
      { startTime := 0, endTime := 1000, text := "kept", filtered := some false }
    ∧ processCues {} censorAll
        (processCues {} censorAll
          [{ startTime := 0, endTime := 1000, text := "kept", filtered := some false },
           { startTime := 0, endTime := 500, text := "bad" }])
      = processCues {} censorAll
          [{ startTime := 0, endTime := 1000, text := "kept", filtered := some false },
           { startTime := 0, endTime := 500, text := "bad" }] := by
  refine ⟨?_, ?_⟩
  · exact (processCues_skips_classified_and_idempotent {} censorAll
      [{ startTime := 0, endTime := 1000, text := "kept", filtered := some false },
       { startTime := 0, endTime := 500, text := "bad" }]).1
      _ (by decide) (by decide)
  · exact (processCues_skips_classified_and_idempotent {} censorAll
      [{ startTime := 0, endTime := 1000, text := "kept", filtered := some false },
       { startTime := 0, endTime := 500, text := "bad" }]).2

/-! ### Claim C7 -/

theorem applyMuteEffector_effects_length (r : AudioRule) (s : AudioState)
    (m : MuteMethod) (h : r.muteMethod = some m) :
    (applyMuteEffector r s).effects.length = s.effects.length + 1 := by
  unfold applyMuteEffector
  rw [h]
  cases m <;> simp

/-- The pre-clear phase of `mute` (setting `muted`, the stats bump and the
effector). -/
def muteBody (cs : Bool) (r : AudioRule) (s : AudioState) : AudioState :=
  if s.muted then s
  else applyMuteEffector r
    { s with muted := true, mutes := if cs then s.mutes + 1 else s.mutes }

theorem mute_eq_phases (cs : Bool) (r : AudioRule) (s : AudioState) :
    mute cs r s =
      if delayTruthy r ∧ timeoutTruthy (muteBody cs r s).unmuteTimeout then
        clearUnmuteTimeout r (muteBody cs r s)
      else muteBody cs r s := rfl

theorem mute_fields_of_muted (cs : Bool) (r : AudioRule) (s : AudioState)
    (h : s.muted = true) :
    (mute cs r s).muted = true
    ∧ (mute cs r s).effects = s.effects
    ∧ (mute cs r s).mutes = s.mutes := by
  have hb : muteBody cs r s = s := by
    unfold muteBody
    rw [if_pos h]
  rw [mute_eq_phases, hb]
  split
  · exact ⟨(clearUnmuteTimeout_preserves r s).1.trans h,
      (clearUnmuteTimeout_preserves r s).2.2,
      (clearUnmuteTimeout_preserves r s).2.1⟩
  · exact ⟨h, rfl, rfl⟩

theorem mute_fields_of_unmuted (cs : Bool) (r : AudioRule) (s : AudioState)
    (m : MuteMethod) (hm : r.muteMethod = some m) (h : s.muted = false) :
    (mute cs r s).muted = true
    ∧ (mute cs r s).effects.length = s.effects.length + 1
    ∧ (mute cs r s).mutes = (if cs then s.mutes + 1 else s.mutes) := by
  have hb : muteBody cs r s = applyMuteEffector r
      { s with muted := true, mutes := if cs then s.mutes + 1 else s.mutes } := by
    unfold muteBody
    rw [if_neg (by simp [h])]
  have h1 : (applyMuteEffector r
      { s with muted := true, mutes := if cs then s.mutes + 1 else s.mutes }).muted = true := by
    rw [(applyMuteEffector_preserves r _).1]
  have h2 : (applyMuteEffector r
      { s with muted := true, mutes := if cs then s.mutes + 1 else s.mutes }).effects.length
      = s.effects.length + 1 :=
    applyMuteEffector_effects_length r _ m hm
  have h3 : (applyMuteEffector r
      { s with muted := true, mutes := if cs then s.mutes + 1 else s.mutes }).mutes
      = (if cs then s.mutes + 1 else s.mutes) := by
    rw [(applyMuteEffector_preserves r _).2.1]
  rw [mute_eq_phases, hb]
  generalize hx : applyMuteEffector r
      { s with muted := true, mutes := if cs then s.mutes + 1 else s.mutes } = x at h1 h2 h3
  split
  · exact ⟨(clearUnmuteTimeout_preserves r x).1.trans h1,
      ((congrArg List.length (clearUnmuteTimeout_preserves r x).2.2).trans h2),
      ((clearUnmuteTimeout_preserves r x).2.1.trans h3)⟩
  · exact ⟨h1, h2, h3⟩

/-- Claim C7 (counterexample): from an engine state that is ALREADY muted,
two consecutive `mute` calls invoke the effector zero times, not exactly
once — the claim's "for every engine state" fails on muted states. -/
theorem mute_twice_on_muted_state_no_effector :
    (mute true ruleDelay500 (mute true ruleDelay500 stateMutedNoTimer)).effects.length = 0
    ∧ stateMutedNoTimer.muted = true
    ∧ ¬ ((mute true ruleDelay500 (mute true ruleDelay500 stateMutedNoTimer)).effects.length
        = stateMutedNoTimer.effects.length + 1) := by
  decide

/-- Claim C7 (amended): for every engine state with `muted = false` and
every rule whose `muteMethod` is one of the three mute methods (as
`initRule` guarantees for enabled rules), two consecutive `mute` calls
invoke the effector exactly once and bump the stats counter exactly once
when stats collection is enabled (and not at all otherwise) — the second
call is a no-op on the effector — and the state is `muted = true` after
both calls. -/
theorem mute_twice_effector_once (cs : Bool) (r : AudioRule) (s : AudioState)
    (m : MuteMethod) (hm : r.muteMethod = some m) (h : s.muted = false) :
    (mute cs r (mute cs r s)).effects.length = s.effects.length + 1
    ∧ (mute cs r (mute cs r s)).muted = true
    ∧ (mute cs r (mute cs r s)).mutes = (if cs then s.mutes + 1 else s.mutes) := by
  have h1 := mute_fields_of_unmuted cs r s m hm h
  have h2 := mute_fields_of_muted cs r (mute cs r s) h1.1
  refine ⟨?_, h2.1, ?_⟩
  · rw [h2.2.1, h1.2.1]
  · rw [h2.2.2, h1.2.2]

/-- Witness for `mute_twice_effector_once`: an unmuted engine, stats on. -/
theorem mute_twice_effector_once_witness :
    (mute true ruleDelay500 (mute true ruleDelay500
        { stateMutedNoTimer with muted := false })).effects.length
      = { stateMutedNoTimer with muted := false }.effects.length + 1
    ∧ (mute true ruleDelay500 (mute true ruleDelay500
        { stateMutedNoTimer with muted := false })).muted = true
    ∧ (mute true ruleDelay500 (mute true ruleDelay500
        { stateMutedNoTimer with muted := false })).mutes
      = (if true then { stateMutedNoTimer with muted := false }.mutes + 1
         else { stateMutedNoTimer with muted := false }.mutes) :=
  mute_twice_effector_once true ruleDelay500 { stateMutedNoTimer with muted := false }
    MuteMethod.videoVolume rfl rfl

/-! ### Claim C9 -/

/-- Claim C9: a rule with no `mode`, a mode of `element`/`elementChild`
without a `tagName`, `iframe: true` on a non-iframe page, or `iframe: false`
on an iframe page, ends `initRule` with `disabled = true` and is excluded
from the enabled rule set. -/
theorem initRule_precondition_disables (cfg : EngineConfig) (pageIframe : Bool)
    (r : AudioRule) (h : rulePreconditionFails pageIframe r) :
    (initRule cfg pageIframe r).1.disabled = true
    ∧ (initRule cfg pageIframe r).2.enabled = false := by
  unfold initRule
  rw [if_pos h]
  exact ⟨rfl, rfl⟩

/-- Witness for `initRule_precondition_disables`: a rule with mode
`element` and no tag. -/
theorem initRule_precondition_disables_witness :
    (initRule engineConfig0 false { mode := some "element" }).1.disabled = true
    ∧ (initRule engineConfig0 false { mode := some "element" }).2.enabled = false :=
  initRule_precondition_disables engineConfig0 false { mode := some "element" }
    (Or.inr (Or.inl ⟨Or.inl rfl, rfl⟩))

/-! ### Claim C10 -/

/-- Claim C10: `supportedNode` returns the rule id of the first enabled rule
whose mode predicate accepts the node (`find?` over `enabledRuleIds`) and
the boolean `false` when no enabled rule matches; and the number `0`
returned for a match on the rule at position 0 is falsy, indistinguishable
by a truthiness test from the `false` of the no-match case. -/
theorem supportedNode_first_match_and_zero_falsy :
    (∀ (rules : List AudioRule) (enabledRuleIds : List Nat) (accepts : Nat → Bool),
      supportedNode rules enabledRuleIds accepts =
        match enabledRuleIds.find? (ruleMatches rules accepts) with
        | some i => SupportedResult.ruleId i
        | none => SupportedResult.notFound)
    ∧ supportedResultTruthy (SupportedResult.ruleId 0)
      = supportedResultTruthy SupportedResult.notFound := by
  constructor
  · intro rules ids accepts
    induction ids with
    | nil => rfl
    | cons i rest ih =>
        simp only [supportedNode]
        by_cases hm : ruleMatches rules accepts i = true
        · have hm2 : (match (rules.getD i {}).mode with
              | some m =>
                  if m = "element" ∨ m = "elementChild" ∨ m = "text" ∨ m = "watcher" then
                    accepts i
                  else false
              | none => false) = true := hm
          rw [if_pos hm2, List.find?_cons_of_pos _ hm]
        · have hm2 : ¬ ((match (rules.getD i {}).mode with
              | some m =>
                  if m = "element" ∨ m = "elementChild" ∨ m = "text" ∨ m = "watcher" then
                    accepts i
                  else false
              | none => false) = true) := hm
          rw [if_neg hm2, List.find?_cons_of_neg _ (by simpa using hm)]
          exact ih
  · rfl

end WebAudio
